import Mathlib

/-!
Verification development for a folder-based staged processing pipeline.

The filesystem is shallowly embedded as a finite map from paths to file
contents plus a finite set of directories.  Paths are lists of components
(the rendering with a leading slash and slash separators matches the
string form used by the code when it compares paths).  Stateful code is
embedded in a state-plus-exception monad whose error branch carries the
state at the point of the raise, matching the semantics of exceptions
over a mutable filesystem.
-/

/-- A filesystem path, as its list of components from the root. -/
abbrev PathL : Type := List String

/-- String constants used by the embedding (bound to names so that every
string literal sits after an operator or delimiter). -/
def slash : String := "/"

def emptyS : String := ""

def underS : String := "_"

def dotErrS : String := ".err"

def workingS : String := "working"

def processedS : String := "processed"

def errorS : String := "error"

/-- Render a path the way the code renders an absolute path:
a leading separator and separator-joined components. -/
def render (p : PathL) : String :=
  p.foldl (fun acc x => acc ++ slash ++ x) emptyS

/-- The base name of a path (Python `Path(p).name`; empty for the root). -/
def pathName (p : PathL) : String :=
  (p.getLast?).getD emptyS

/-- The parent of a path (Python `Path(p).parent`). -/
def pathParent (p : PathL) : PathL :=
  p.dropLast

/-- Index of the last dot in a list of characters, if any. -/
def lastDotIdx (cs : List Char) : Option Nat :=
  ((List.range cs.length).filter (fun i => cs.getD i ' ' = '.')).getLast?

/-- Python `pathlib` stem/suffix split: the name is cut at its last dot
provided that dot is neither the first nor the last character. -/
def splitName (s : String) : String × String :=
  let cs := s.data
  match lastDotIdx cs with
  | some i =>
      if 0 < i ∧ i < cs.length - 1 then (String.mk (cs.take i), String.mk (cs.drop i))
      else (s, emptyS)
  | none => (s, emptyS)

/-- The embedded filesystem: regular files (path with contents) and
directories. -/
structure FS where
  files : List (PathL × String)
  dirs : List PathL
deriving DecidableEq

/-- First-match association lookup (used for the file map and for other
keyed maps in the development). -/
def assocFind {κ ρ : Type} [DecidableEq κ] : List (κ × ρ) → κ → Option ρ
  | [], _ => none
  | (k, v) :: rest, key => if k = key then some v else assocFind rest key

/-- Drop every binding of a key from an association list. -/
def dropKey {κ ρ : Type} [DecidableEq κ] : List (κ × ρ) → κ → List (κ × ρ)
  | [], _ => []
  | (k, v) :: rest, key => if k = key then dropKey rest key else (k, v) :: dropKey rest key

def isFile (fs : FS) (p : PathL) : Bool :=
  (assocFind fs.files p).isSome

def getFile (fs : FS) (p : PathL) : Option String :=
  assocFind fs.files p

def isDir (fs : FS) (p : PathL) : Bool :=
  fs.dirs.contains p

def existsFS (fs : FS) (p : PathL) : Bool :=
  isFile fs p || isDir fs p

/-- Create or overwrite a regular file. -/
def setFile (fs : FS) (p : PathL) (c : String) : FS :=
  { files := (p, c) :: dropKey fs.files p, dirs := fs.dirs }

/-- Remove a regular file. -/
def removeFile (fs : FS) (p : PathL) : FS :=
  { files := dropKey fs.files p, dirs := fs.dirs }

def addDir (fs : FS) (p : PathL) : FS :=
  if fs.dirs.contains p then fs else { files := fs.files, dirs := p :: fs.dirs }

/-- All nonempty ancestor paths of a path, the path itself included. -/
def ancestors (p : PathL) : List PathL :=
  (List.range p.length).map (fun i => p.take (i + 1))

/-- Python `mkdir(parents=True, exist_ok=True)`: create the directory and every
missing ancestor. -/
def mkdirParents (fs : FS) (p : PathL) : FS :=
  (ancestors p).foldl addDir fs

/-- Errors surfaced by the embedded operations. -/
inductive PErr where
  | fileNotFound
  | isADirectory
  | valueError
  | unboundLocal
deriving DecidableEq

/-- Outcome of a stateful computation: a value or an error, each together
with the filesystem at that point. -/
inductive Res (α : Type) where
  | ok : α → FS → Res α
  | err : PErr → FS → Res α
deriving DecidableEq

/-- The state-plus-exception monad of the embedding. -/
def M (α : Type) : Type := FS → Res α

def mPure {α : Type} (a : α) : M α := fun s => Res.ok a s

def mBind {α β : Type} (x : M α) (f : α → M β) : M β := fun s =>
  match x s with
  | Res.ok a s2 => f a s2
  | Res.err e s2 => Res.err e s2

instance : Monad M where
  pure := mPure
  bind := mBind

/-- Raise an exception, keeping the current filesystem. -/
def throwM {α : Type} (e : PErr) : M α := fun s => Res.err e s

/-- Python `try`/`except Exception`: the handler runs from the state at
the point of the raise. -/
def catchM {α : Type} (x : M α) (h : PErr → M α) : M α := fun s =>
  match x s with
  | Res.ok a s2 => Res.ok a s2
  | Res.err e s2 => h e s2

/-- The filesystem carried by a result, whether ok or error. -/
def stateOf {α : Type} : Res α → FS
  | Res.ok _ s => s
  | Res.err _ s => s

def isFileM (p : PathL) : M Bool := fun s => Res.ok (isFile s p) s

def existsM (p : PathL) : M Bool := fun s => Res.ok (existsFS s p) s

/-- Relocate a directory subtree: every file and directory under `src` is
re-rooted under `dst` (the semantics of `shutil.move`/`os.rename` on a
directory). -/
def rerootDir (fs : FS) (src dst : PathL) : FS :=
  { files := fs.files.map (fun e => if e.1.take src.length = src then (dst ++ e.1.drop src.length, e.2) else e),
    dirs := fs.dirs.map (fun d => if d.take src.length = src then dst ++ d.drop src.length else d) }

/-- Embedding of `file_ops.create_directory`: ensure the directory exists
(`mkdir(parents=True, exist_ok=True)`) and return it. -/
def create_directory (p : PathL) : M PathL := fun s =>
  Res.ok p (mkdirParents s p)

/-- Embedding of `file_ops.move_file`: ensure the destination folder exists, then
`shutil.move` the source onto `destination_folder / name`.  The call to
`wait_until_file_ready` made by the source discards its Boolean result
and has no filesystem effect, so it does not appear in the static model;
its Boolean is analysed separately by the stability-probe embedding. -/
def move_file (src destFolder : PathL) : M PathL :=
  mBind (create_directory destFolder) (fun _ => fun s =>
    let dest := destFolder ++ [pathName src]
    match getFile s src with
    | some c => Res.ok dest (setFile (removeFile s src) dest c)
    | none =>
        if isDir s src then Res.ok dest (rerootDir s src dest)
        else Res.err PErr.fileNotFound s)

/-- Embedding of `file_ops.copy_file`: ensure the destination folder exists, then
`shutil.copy` the source to `destination_folder / name` (the probe call
is discarded exactly as in `move_file`). -/
def copy_file (src destFolder : PathL) : M PathL :=
  mBind (create_directory destFolder) (fun _ => fun s =>
    let dest := destFolder ++ [pathName src]
    match getFile s src with
    | some c => Res.ok dest (setFile s dest c)
    | none =>
        if isDir s src then Res.err PErr.isADirectory s
        else Res.err PErr.fileNotFound s)

/-- Embedding of `file_ops.rename_file`: a `Path.rename` to a sibling with the new name
(silently replacing an existing destination, as on POSIX). -/
def rename_file (src : PathL) (newName : String) : M PathL := fun s =>
  let dest := pathParent src ++ [newName]
  match getFile s src with
  | some c => Res.ok dest (setFile (removeFile s src) dest c)
  | none =>
      if isDir s src then Res.ok dest (rerootDir s src dest)
      else Res.err PErr.fileNotFound s

/-- Python `mkdir(exist_ok=True)` without `parents`: the parent must already
exist. -/
def mkdirLeaf (p : PathL) : M Unit := fun s =>
  if isDir s p then Res.ok () s
  else if isDir s (pathParent p) then Res.ok () (addDir s p)
  else Res.err PErr.fileNotFound s

example : splitName (String.mk ['d', 'o', 'c', '.', 't', 'x', 't']) =
    (String.mk ['d', 'o', 'c'], String.mk ['.', 't', 'x', 't']) := by decide

/-- The configuration constants read from `config.ini` by
`pipeline_handling`: the pipeline root (`PIPELINE_DIR`), the audit root
(`PIPELINE_STORAGE_DIR`) and `BASE_DIR`. -/
structure Config where
  pipeline : PathL
  storage : PathL
  base : PathL
deriving DecidableEq

/-- Embedding of `pipeline_handling.reflect_to_pipeline_storage`.  `ts` is the string
returned by `generate_timestamp`; since that function is wrapped in
`lru_cache` and takes no arguments, every call in a process returns the
same string, so it is modelled as a constant parameter (its caching is
itself verified by the cache embedding below). -/
def reflect_to_pipeline_storage (cfg : Config) (ts : String)
    (current_dir file_path : PathL) (result : Bool) : M Unit := do
  if !result then
    pure ()
  else
    let isf ← isFileM file_path
    if !isf then
      pure ()
    else
      let parent_name := pathName current_dir
      let subdir := cfg.storage ++ [parent_name]
      let _ ← create_directory subdir
      let file_status := pathName (pathParent file_path)
      let status := if file_status ≠ parent_name then file_status else emptyS
      let sp := splitName (pathName file_path)
      let new_file_name := sp.1 ++ underS ++ status ++ underS ++ ts ++ sp.2
      let moved ← move_file file_path subdir
      let _ ← rename_file moved new_file_name
      pure ()

/-- Lexicographic code-point order on character lists (the order Python
uses to compare strings). -/
def codeLt : List Char → List Char → Bool
  | [], [] => false
  | [], _ :: _ => true
  | _ :: _, [] => false
  | a :: as, b :: bs =>
    if a.toNat < b.toNat then true
    else if b.toNat < a.toNat then false
    else codeLt as bs

def pyStrLe (a b : String) : Bool := !(codeLt b.data a.data)

/-- Insertion into a sorted list of strings, for `sorted(...)`. -/
def insertSorted (x : String) : List String → List String
  | [] => [x]
  | y :: ys => if pyStrLe x y then x :: y :: ys else y :: insertSorted x ys

def sortNames : List String → List String
  | [] => []
  | x :: xs => insertSorted x (sortNames xs)

/-- Python `os.listdir(PIPELINE_DIR)` filtered by `isdir`: the base names of the
immediate subdirectories of a directory. -/
def childNames (fs : FS) (d : PathL) : List String :=
  fs.dirs.filterMap (fun q =>
    if q.length = d.length + 1 ∧ q.take d.length = d then q.getLast? else none)

def indexOfStr : List String → String → Option Nat
  | [], _ => none
  | x :: xs, t => if x = t then some 0 else (indexOfStr xs t).map (· + 1)

/-- Embedding of `pipeline_handling.get_next_dir`: sorts the base names of the stage
directories, then calls `.index` with the full path it was given (a
`list.index` miss is Python's `ValueError`). -/
def get_next_dir (cfg : Config) (p : PathL) : M (Option PathL) := fun s =>
  let sibling_dir := sortNames (childNames s cfg.pipeline)
  match indexOfStr sibling_dir (render p) with
  | none => Res.err PErr.valueError s
  | some i =>
      if i + 1 < sibling_dir.length then
        Res.ok (some (cfg.base ++ [sibling_dir.getD (i + 1) emptyS])) s
      else
        Res.ok none s

/-- Outcome of invoking the stage processor: a returned Boolean, or a
raised exception (swallowed by `process_file`). -/
inductive ProcRes where
  | ok : Bool → ProcRes
  | exn : ProcRes
deriving DecidableEq

/-- Embedding of `pipeline_handling.process_file`.  The processor resolved by
`get_processor_function` is passed in as `proc` (the module is assumed
present with its callable entry point, the configuration of every claim
considered); a raising processor leaves `result` at `False` and leaves
`processed_file_path` unassigned, so the later read of that local raises
(Python's unbound-local error), which the enclosing handler catches. -/
def process_file (cfg : Config) (ts : String)
    (proc : PathL → FS → ProcRes × FS) (file_path : PathL) : M Unit := do
  let ex ← existsM file_path
  if !ex then
    throwM PErr.fileNotFound
  else
    let current_dir := pathParent file_path
    let working_dir := current_dir ++ [workingS]
    let processed_dir := current_dir ++ [processedS]
    let error_dir := current_dir ++ [errorS]
    let _ ← mkdirLeaf working_dir
    let _ ← mkdirLeaf processed_dir
    let _ ← mkdirLeaf error_dir
    let file_name := pathName file_path
    catchM
      (do
        let _ ← copy_file file_path working_dir
        let working_file_path := working_dir ++ [file_name]
        let r ← (fun s => let pr := proc working_file_path s; Res.ok pr.1 pr.2)
        let result := match r with
          | ProcRes.ok b => b
          | ProcRes.exn => false
        let ppath : Option PathL := match r with
          | ProcRes.ok _ => some (processed_dir ++ [file_name])
          | ProcRes.exn => none
        reflect_to_pipeline_storage cfg ts current_dir file_path result
        match ppath with
        | none => throwM PErr.unboundLocal
        | some processed_file_path => do
          reflect_to_pipeline_storage cfg ts current_dir processed_file_path result
          if result then do
            let next_dir ← get_next_dir cfg file_path
            match next_dir with
            | some d => do
                let _ ← move_file processed_file_path d
                pure ()
            | none => do
                let _ ← move_file processed_file_path processed_dir
                pure ()
          else do
            let error_file_path := error_dir ++ [file_name ++ dotErrS]
            let _ ← move_file working_file_path error_file_path
            reflect_to_pipeline_storage cfg ts current_dir processed_file_path result)
      (fun _ => do
        let _ ← move_file file_path (error_dir ++ [file_name ++ dotErrS])
        pure ())

/-- Outcome of one run of the stability probe: a returned Boolean or a
raised exception. -/
inductive ProbeRes where
  | val : Bool → ProbeRes
  | raised : PErr → ProbeRes
deriving DecidableEq

/-- Loop body of `file_ops.check_file_is_ready`, over a trace of observed
sizes: `sizes k` is the size `os.path.getsize` would report at the k-th
sample (`none` when the path has vanished, in which case `getsize`
raises).  Idealised cadence: the k-th sample is taken at elapsed time
`k * interval`; times are in whole seconds (the code uses floats, and
every value it is called with is a whole number of seconds).  `fuel`
bounds the recursion; any fuel large enough for the timeout branch to
fire is equivalent (proved below). -/
def checkAux (sizes : Nat → Option Nat) (checks interval timeout : Nat) :
    Nat → Nat → Nat → Nat → Option ProbeRes
  | 0, _, _, _ => none
  | fuel + 1, i, stable_count, last_size =>
    match sizes i with
    | none => some (ProbeRes.raised PErr.fileNotFound)
    | some current_size =>
      let stable2 := if current_size = last_size then stable_count + 1 else 0
      if checks ≤ stable2 then some (ProbeRes.val true)
      else if timeout < i * interval then some (ProbeRes.val false)
      else checkAux sizes checks interval timeout fuel (i + 1) stable2 current_size

/-- Fuel sufficient for the timeout branch of the probe loop to fire. -/
def probeFuel (interval timeout : Nat) : Nat :=
  timeout / interval + 2

/-- Embedding of `file_ops.check_file_is_ready`: returns false at once when the path
is not a regular file at the start; afterwards samples sizes at
`interval` cadence, declares readiness after `checks` consecutive equal
samples (checked before the timeout test), gives up with false once the
elapsed time exceeds `timeout`, and lets `getsize` raise if the path
vanishes between samples. -/
def check_file_is_ready (sizes : Nat → Option Nat) (checks interval timeout : Nat) :
    Option ProbeRes :=
  match sizes 0 with
  | none => some (ProbeRes.val false)
  | some s0 => checkAux sizes checks interval timeout (probeFuel interval timeout) 1 0 s0

/-- Embedding of `file_ops.wait_until_file_ready` at its default arguments (the form
used by `move_file`, `copy_file` and `rename_file`): it loops calling
`check_file_is_ready(file_path, 3, 2.0, 30.0)`, but that callee is
wrapped in `lru_cache`, so every retry returns the cached first result;
the loop therefore returns exactly the first probe's Boolean (truth at
once, falsity after `max_wait` spent on cache hits), and a raising first
probe propagates. -/
def wait_until_file_ready (sizes : Nat → Option Nat) : Option ProbeRes :=
  check_file_is_ready sizes 3 2 30

/-- The state of one `functools.lru_cache` wrapper: entries most recent
first. -/
structure LruCache (κ ρ : Type) where
  entries : List (κ × ρ)
deriving DecidableEq

/-- Move a hit entry to the most-recent position. -/
def lruTouch {κ ρ : Type} [DecidableEq κ] (c : LruCache κ ρ) (k : κ) (v : ρ) : LruCache κ ρ :=
  { entries := (k, v) :: dropKey c.entries k }

/-- Insert a fresh entry, evicting the least recently used one when the
cache is full. -/
def lruInsert {κ ρ : Type} [DecidableEq κ] (maxsize : Nat) (c : LruCache κ ρ)
    (k : κ) (v : ρ) : LruCache κ ρ :=
  { entries := (k, v) :: (if maxsize ≤ c.entries.length then c.entries.dropLast else c.entries) }

/-- One call through a `cache_utils.cache_function` wrapper (which is
`functools.lru_cache` behind a passthrough): a hit returns the stored
result without running the body and without touching the filesystem; a
miss runs the body and caches a normal return; a raising body (`none`)
propagates and caches nothing. -/
def cache_function_call {κ ρ : Type} [DecidableEq κ] (maxsize : Nat)
    (body : κ → FS → Option (ρ × FS)) (k : κ) (c : LruCache κ ρ) (fs : FS) :
    Option (ρ × LruCache κ ρ × FS) :=
  match assocFind c.entries k with
  | some v => some (v, lruTouch c k v, fs)
  | none =>
      match body k fs with
      | none => none
      | some (v, fs2) => some (v, lruInsert maxsize c k v, fs2)

/-- The function `move_file` as an `lru_cache` body: a raised exception is not
cached. -/
def move_file_body (a : PathL × PathL) (fs : FS) : Option (PathL × FS) :=
  match move_file a.1 a.2 fs with
  | Res.ok p s => some (p, s)
  | Res.err _ _ => none

/-- The cached `move_file` as installed by `@cache_function(maxsize=256)`. -/
def move_file_cached (a : PathL × PathL) (c : LruCache (PathL × PathL) PathL) (fs : FS) :
    Option (PathL × LruCache (PathL × PathL) PathL × FS) :=
  cache_function_call 256 move_file_body a c fs

/-- The function `generate_timestamp` as an `lru_cache` body: `now i` is the wall
clock string at the i-th call; the function takes no argument, so its
cache key is the empty tuple. -/
def generate_timestamp_body (now : Nat → String) (i : Nat) :
    Unit → FS → Option (String × FS) :=
  fun _ fs => some (now i, fs)

def fsEmpty : FS := { files := [], dirs := [] }

/-- The results of the first `n` calls to the cached `generate_timestamp`
in one process, with the cache threaded through. -/
def tsCalls (now : Nat → String) : Nat → List String × LruCache Unit String
  | 0 => ([], { entries := [] })
  | n + 1 =>
    let prev := tsCalls now n
    match cache_function_call 256 (generate_timestamp_body now n) () prev.2 fsEmpty with
    | some (v, c2, _) => (prev.1 ++ [v], c2)
    | none => prev

/-- Embedding of `pipeline_dashboard_websocket.PipelineStatus`. -/
inductive PStatus where
  | idle
  | running
  | completed
  | failed
  | paused
deriving DecidableEq

/-- The per-pipeline record kept by the dashboard (`PipelineInfo`), with
`last_update` in whole seconds of wall-clock time. -/
structure PInfo where
  status : PStatus
  last_update : Nat
  error_message : Option String
deriving DecidableEq

def timeoutMsg : String := "Pipeline timeout - no updates received"

/-- The sweep test applied to one pipeline by
`monitor_pipeline_timeouts`: flipped to failed exactly when it is
running and its last update is more than 300 seconds old. -/
def flipOne (now : Nat) (p : PInfo) : PInfo × Bool :=
  if 300 < now - p.last_update ∧ p.status = PStatus.running then
    ({ status := PStatus.failed, last_update := p.last_update,
       error_message := some timeoutMsg }, true)
  else (p, false)

def sweepPipes (now : Nat) : List (String × PInfo) → List (String × PInfo) × Nat
  | [] => ([], 0)
  | (i, p) :: rest =>
    let fp := flipOne now p
    let tail := sweepPipes now rest
    ((i, fp.1) :: tail.1, (if fp.2 then 1 else 0) + tail.2)

/-- One iteration of `monitor_pipeline_timeouts` at wall-clock `now`,
with `clients` connected dashboard clients: returns the updated pipeline
map and the number of `dashboard_update` broadcasts emitted
(`broadcast_updates` sends nothing when no client is connected). -/
def monitor_pipeline_timeouts_step (now clients : Nat)
    (ps : List (String × PInfo)) : List (String × PInfo) × Nat :=
  let sw := sweepPipes now ps
  (sw.1, if 0 < clients then sw.2 else 0)

/-- The aggregate counters kept in `global_stats`. -/
structure GlobalStats where
  total_pipelines : Nat
  active_pipelines : Nat
  failed_pipelines : Nat
  completed_pipelines : Nat
  idle_pipelines : Nat
deriving DecidableEq

def countStatus (st : PStatus) (ps : List (String × PInfo)) : Nat :=
  (ps.filter (fun e => decide (e.2.status = st))).length

/-- Embedding of `PipelineDashboard.update_global_stats`: recompute the aggregate
counters from the pipeline map (paused pipelines are counted in the
total but written to no dedicated bucket). -/
def update_global_stats (ps : List (String × PInfo)) : GlobalStats :=
  { total_pipelines := ps.length,
    active_pipelines := countStatus PStatus.running ps,
    failed_pipelines := countStatus PStatus.failed ps,
    completed_pipelines := countStatus PStatus.completed ps,
    idle_pipelines := countStatus PStatus.idle ps }

/-- Running the audit mirror twice with identical arguments. -/
def reflect_twice (cfg : Config) (ts : String) (current_dir file_path : PathL)
    (result : Bool) : M Unit :=
  mBind (reflect_to_pipeline_storage cfg ts current_dir file_path result)
    (fun _ => reflect_to_pipeline_storage cfg ts current_dir file_path result)

/-- The paths of the regular files lying under a directory. -/
def filesUnder (fs : FS) (d : PathL) : List PathL :=
  (fs.files.map (fun e => e.1)).filter (fun p => decide (p.take d.length = d))

/- Concrete scenario used by the claims: a pipeline root with stages
`10_a` and `20_b`, an audit root, and one pending file in `10_a`. -/

def sPipe : String := "pipe"

def sStore : String := "store"

def s10a : String := "10_a"

def s20b : String := "20_b"

def sDoc : String := "doc.txt"

def sBad : String := "bad.txt"

def sBig : String := "big.bin"

def sMarker : String := "proc_invoked"

def tsC : String := "20250101_120000"

def contentD : String := "D"

def contentB : String := "B"

def contentOne : String := "1"

def cfgC : Config := { pipeline := [sPipe], storage := [sStore], base := [sPipe] }

def stageA : PathL := [sPipe, s10a]

def docPath : PathL := [sPipe, s10a, sDoc]

def badPath : PathL := [sPipe, s10a, sBad]

def bigPath : PathL := [sPipe, s10a, sBig]

def baseDirs : List PathL := [[sPipe], [sPipe, s10a], [sPipe, s20b], [sStore]]

def fsDoc : FS := { files := [(docPath, contentD)], dirs := baseDirs }

def fsBad : FS := { files := [(badPath, contentB)], dirs := baseDirs }

def fsBig : FS := { files := [(bigPath, contentB)], dirs := baseDirs }

/-- A processor that returns `False`. -/
def procFalse : PathL → FS → ProcRes × FS := fun _ fs => (ProcRes.ok false, fs)

/-- A processor that raises. -/
def procExn : PathL → FS → ProcRes × FS := fun _ fs => (ProcRes.exn, fs)

/-- The path of the marker file written by `procMarker`. -/
def markerPath : PathL := [sMarker]

/-- A processor that records its invocation by writing a marker file
(and returns `False`). -/
def procMarker : PathL → FS → ProcRes × FS :=
  fun _ fs => (ProcRes.ok false, setFile fs markerPath contentOne)

/-- A size trace that grows at every sample: a file still being
written. -/
def growingSizes : Nat → Option Nat := fun i => some i

/-- A size trace for a file that exists at the initial check and has
vanished by the first sample. -/
def vanishSizes : Nat → Option Nat := fun i => if i = 0 then some 5 else none

/-- A size trace for a file whose size never changes. -/
def stableSizes : Nat → Option Nat := fun _ => some 7

/-- The single audit record the mirror scenario produces:
`<audit>/10_a/<stem>__<ts><ext>` (the status tag is empty because the
source sits at the stage root). -/
def docRecordPath : PathL :=
  [sStore, s10a, (splitName sDoc).1 ++ underS ++ underS ++ tsC ++ (splitName sDoc).2]

/-- A size trace for a path that does not exist at the initial check. -/
def absentSizes : Nat → Option Nat := fun _ => none

/-- Concrete inputs for the cache-memoisation witness. -/
def mvKey : PathL × PathL := (docPath, [sStore])

def lruEmptyMv : LruCache (PathL × PathL) PathL := { entries := [] }

/-- Concrete wall clock for the timestamp witness: second `i` of the
process renders differently at every call. -/
def clockC : Nat → String := fun i => tsC ++ underS ++ (Nat.toDigits 10 i |> String.mk)

/-- Concrete dashboard state for the sweeper witness: one stale running
pipeline and one idle pipeline. -/
def sP1 : String := "p1"

def sP2 : String := "p2"

def pRun : PInfo := { status := PStatus.running, last_update := 0, error_message := none }

def pIdle : PInfo := { status := PStatus.idle, last_update := 0, error_message := none }

def psC : List (String × PInfo) := [(sP1, pRun), (sP2, pIdle)]

/-- Value, cache and filesystem produced by a first cached `move_file`
call on the mirror scenario (used by the memoisation witness). -/
def mvVal1 : PathL := [sStore, sDoc]

def mvCache1 : LruCache (PathL × PathL) PathL := { entries := [(mvKey, mvVal1)] }

def mvFs1 : FS := { files := [(mvVal1, contentD)], dirs := baseDirs }

/-- A name at which the stage holds no entry (used by the missing-input
witness). -/
def sMissing : String := "nothere.txt"

def missingPath : PathL := [sPipe, s10a, sMissing]

/-- The filesystem produced by a successful audit-mirror run on a source
that is a regular file (derived below as the evaluation of
`reflect_to_pipeline_storage`): the record is first moved into the stage
subdirectory of the audit root under its original name and then renamed
to the timestamped name. -/
def reflectResultFS (cfg : Config) (ts : String) (cur fp : PathL) (fs : FS) (c : String) : FS :=
  let subdir := cfg.storage ++ [pathName cur]
  let dest := subdir ++ [pathName fp]
  let file_status := pathName (pathParent fp)
  let status := if file_status ≠ pathName cur then file_status else emptyS
  let sp := splitName (pathName fp)
  let nm := sp.1 ++ underS ++ status ++ underS ++ ts ++ sp.2
  let sb := mkdirParents (mkdirParents fs subdir) subdir
  setFile (removeFile (setFile (removeFile sb fp) dest c) dest) (pathParent dest ++ [nm]) c

/- ===================== Theorems ===================== -/

theorem bind_apply {α β : Type} (x : M α) (f : α → M β) (s : FS) :
    (x >>= f) s = match x s with
      | Res.ok a s2 => f a s2
      | Res.err e s2 => Res.err e s2 := rfl

theorem pure_apply {α : Type} (a : α) (s : FS) : (pure a : M α) s = Res.ok a s := rfl

theorem assocFind_dropKey_self {κ ρ : Type} [DecidableEq κ] (l : List (κ × ρ)) (k : κ) :
    assocFind (dropKey l k) k = none := by
  induction l with
  | nil => rfl
  | cons e rest ih =>
    obtain ⟨k2, v⟩ := e
    by_cases h : k2 = k <;> simp [dropKey, assocFind, h, ih]

theorem assocFind_dropKey_ne {κ ρ : Type} [DecidableEq κ] (l : List (κ × ρ)) (k q : κ)
    (h : q ≠ k) : assocFind (dropKey l k) q = assocFind l q := by
  induction l with
  | nil => rfl
  | cons e rest ih =>
    obtain ⟨k2, v⟩ := e
    by_cases h2 : k2 = k
    · subst h2
      simp [dropKey, assocFind, Ne.symm h, ih]
    · by_cases h3 : k2 = q <;> simp [dropKey, assocFind, h2, h3, h, ih]

theorem mkdirParents_files (fs : FS) (d : PathL) : (mkdirParents fs d).files = fs.files := by
  unfold mkdirParents
  generalize ancestors d = l
  induction l generalizing fs with
  | nil => rfl
  | cons a rest ih =>
    have h : (addDir fs a).files = fs.files := by
      unfold addDir
      split <;> rfl
    simp [List.foldl_cons, ih, h]

theorem getFile_mkdirParents (fs : FS) (d p : PathL) :
    getFile (mkdirParents fs d) p = getFile fs p := by
  unfold getFile
  rw [mkdirParents_files]

theorem getFile_setFile_self (fs : FS) (p : PathL) (c : String) :
    getFile (setFile fs p c) p = some c := by
  simp [getFile, setFile, assocFind]

theorem isFile_eq_getFile_isSome (fs : FS) (p : PathL) :
    isFile fs p = (getFile fs p).isSome := rfl

theorem reflect_skip_missing (cfg : Config) (ts : String) (cur fp : PathL) (fs : FS)
    (h : isFile fs fp = false) :
    reflect_to_pipeline_storage cfg ts cur fp true fs = Res.ok () fs := by
  unfold reflect_to_pipeline_storage
  simp [bind_apply, isFileM, h, pure_apply]

theorem reflect_run_eq (cfg : Config) (ts : String) (cur fp : PathL) (fs : FS) (c : String)
    (hc : getFile fs fp = some c) :
    reflect_to_pipeline_storage cfg ts cur fp true fs =
      Res.ok () (reflectResultFS cfg ts cur fp fs c) := by
  have hf : isFile fs fp = true := by
    rw [isFile_eq_getFile_isSome, hc]
    rfl
  unfold reflect_to_pipeline_storage reflectResultFS
  simp [bind_apply, pure_apply, isFileM, hf, create_directory, move_file,
    rename_file, mBind, getFile_mkdirParents, hc, getFile_setFile_self]

theorem pathParent_concat (l : PathL) (x : String) : pathParent (l ++ [x]) = l := by
  simp [pathParent]

theorem assocFind_cons {κ ρ : Type} [DecidableEq κ] (k : κ) (v : ρ) (t : List (κ × ρ)) (q : κ) :
    assocFind ((k, v) :: t) q = if k = q then some v else assocFind t q := rfl

theorem reflect_run_no_source (cfg : Config) (ts : String) (cur fp : PathL) (fs : FS) (c : String)
    (hpar : pathParent fp ≠ cfg.storage ++ [pathName cur]) :
    isFile (reflectResultFS cfg ts cur fp fs c) fp = false := by
  have hne : ∀ x : String, fp ≠ (cfg.storage ++ [pathName cur]) ++ [x] := by
    intro x h
    apply hpar
    rw [h, pathParent_concat]
  unfold reflectResultFS
  simp only [pathParent_concat]
  rw [isFile_eq_getFile_isSome]
  unfold getFile setFile removeFile
  rw [assocFind_cons, if_neg (Ne.symm (hne _)), assocFind_dropKey_ne _ _ _ (hne _),
    assocFind_dropKey_ne _ _ _ (hne _), assocFind_cons, if_neg (Ne.symm (hne _)),
    assocFind_dropKey_ne _ _ _ (hne _), assocFind_dropKey_self]
  rfl

/-- C3 (amended): calling the audit-mirror operation twice with
identical arguments produces exactly one audit record, not two: the
first call moves the source file away, so the second call returns at the
missing-file guard without touching the filesystem — running the mirror
twice equals running it once, and afterwards the source no longer
exists.  (No counter-suffix collision logic exists; the cached
`generate_timestamp` makes the timestamp identical anyway.) -/
theorem c3_mirror_twice_single_record (cfg : Config) (ts : String) (cur fp : PathL)
    (fs : FS) (c : String)
    (hc : getFile fs fp = some c)
    (hpar : pathParent fp ≠ cfg.storage ++ [pathName cur]) :
    reflect_twice cfg ts cur fp true fs = reflect_to_pipeline_storage cfg ts cur fp true fs
    ∧ isFile (stateOf (reflect_to_pipeline_storage cfg ts cur fp true fs)) fp = false := by
  have h1 := reflect_run_eq cfg ts cur fp fs c hc
  have h2 := reflect_run_no_source cfg ts cur fp fs c hpar
  constructor
  · unfold reflect_twice mBind
    simp only [h1]
    exact reflect_skip_missing cfg ts cur fp _ h2
  · rw [h1]
    exact h2

/-- C3 witness: the amended behaviour at the concrete mirror scenario. -/
theorem c3_mirror_twice_single_record_witness :
    reflect_twice cfgC tsC stageA docPath true fsDoc =
        reflect_to_pipeline_storage cfgC tsC stageA docPath true fsDoc
    ∧ isFile (stateOf (reflect_to_pipeline_storage cfgC tsC stageA docPath true fsDoc))
        docPath = false :=
  c3_mirror_twice_single_record cfgC tsC stageA docPath fsDoc contentD (by decide) (by decide)

/-- C3 counterexample: two audit-mirror calls with identical arguments
leave exactly one record under the audit root, refuting the claim that
they produce two distinct records. -/
theorem c3_second_mirror_creates_no_record :
    filesUnder (stateOf (reflect_twice cfgC tsC stageA docPath true fsDoc)) [sStore] =
        [docRecordPath]
    ∧ (filesUnder (stateOf (reflect_twice cfgC tsC stageA docPath true fsDoc)) [sStore]).length
        = 1 := by decide

/-- C1: at the concrete stage scenario, the audit-mirror operation with
`result=True` does place a timestamped record under
`<audit_root>/<stage>/`, but it does so by MOVING the source: after the
operation the source file no longer exists at its original path,
contradicting the claim (and the re-entrancy the spec derives from it).
The code calls `move_file` where its own step comment says copy. -/
theorem c1_reflect_moves_original :
    isFile (stateOf (reflect_to_pipeline_storage cfgC tsC stageA docPath true fsDoc))
        docRecordPath = true
    ∧ isFile (stateOf (reflect_to_pipeline_storage cfgC tsC stageA docPath true fsDoc))
        docPath = false := by decide

/-- C2: at the concrete failing-processor scenario, no audit record is
created at all (`reflect_to_pipeline_storage` returns early whenever
`result` is `False`, so no `causing_error` mirror exists), and the
working copy is moved into a newly created DIRECTORY named
`<stage>/error/<filename>.err` rather than to a regular file of that
name; the raising-processor scenario additionally strands the working
copy and routes the original into that directory. -/
theorem c2_failure_no_mirror_and_err_directory :
    (isDir (stateOf (process_file cfgC tsC procFalse badPath fsBad))
        [sPipe, s10a, errorS, sBad ++ dotErrS] = true
      ∧ isFile (stateOf (process_file cfgC tsC procFalse badPath fsBad))
        [sPipe, s10a, errorS, sBad ++ dotErrS] = false
      ∧ isFile (stateOf (process_file cfgC tsC procFalse badPath fsBad))
        [sPipe, s10a, errorS, sBad ++ dotErrS, sBad] = true
      ∧ filesUnder (stateOf (process_file cfgC tsC procFalse badPath fsBad)) [sStore] = []
      ∧ isFile (stateOf (process_file cfgC tsC procFalse badPath fsBad)) badPath = true)
    ∧ (isFile (stateOf (process_file cfgC tsC procExn badPath fsBad))
        [sPipe, s10a, errorS, sBad ++ dotErrS, sBad] = true
      ∧ isFile (stateOf (process_file cfgC tsC procExn badPath fsBad))
        [sPipe, s10a, workingS, sBad] = true
      ∧ filesUnder (stateOf (process_file cfgC tsC procExn badPath fsBad)) [sStore] = []) := by
  decide

/-- C5: `get_next_dir` never returns the lexicographically next stage
for a file path: it calls `list.index` on the sorted list of stage BASE
names with the FULL path string, which is never among them, so the call
raises `ValueError` (here evaluated on a file in the first of two
stages, where the claim expects the second stage to be returned). -/
theorem c5_get_next_dir_raises_value_error :
    get_next_dir cfgC docPath fsDoc = Res.err PErr.valueError fsDoc := by decide

/-- C7: the stability probe returns false when the path is missing at
the start, true after `checks` consecutive equal samples, and false on
timeout expiry with ever-changing sizes — but when the path vanishes
BETWEEN samples, `os.path.getsize` raises and the exception propagates,
contradicting the claim (and the function's own docstring, which says it
raises nothing). -/
theorem c7_probe_semantics_eval :
    check_file_is_ready vanishSizes 3 2 30 = some (ProbeRes.raised PErr.fileNotFound)
    ∧ check_file_is_ready absentSizes 3 2 30 = some (ProbeRes.val false)
    ∧ check_file_is_ready stableSizes 3 2 30 = some (ProbeRes.val true)
    ∧ check_file_is_ready growingSizes 3 2 30 = some (ProbeRes.val false) := by decide

/-- C6: for every path at which nothing exists, `process_file` raises
its missing-file error before creating, copying, moving or deleting
anything: the resulting filesystem is exactly the input one, and since
this holds for every processor, no processor is invoked. -/
theorem c6_missing_input_no_effect (cfg : Config) (ts : String)
    (proc : PathL → FS → ProcRes × FS) (p : PathL) (fs : FS)
    (h1 : isFile fs p = false) (h2 : isDir fs p = false) :
    process_file cfg ts proc p fs = Res.err PErr.fileNotFound fs := by
  unfold process_file
  simp [bind_apply, existsM, existsFS, h1, h2, throwM]

/-- C6 witness: the guard at a concrete absent path. -/
theorem c6_missing_input_no_effect_witness :
    process_file cfgC tsC procFalse missingPath fsDoc = Res.err PErr.fileNotFound fsDoc :=
  c6_missing_input_no_effect cfgC tsC procFalse missingPath fsDoc (by decide) (by decide)

theorem checkAux_changing (sizes : Nat → Option Nat)
    (hsome : ∀ j, (sizes j).isSome = true)
    (hchg : ∀ j, sizes (j + 1) ≠ sizes j) :
    ∀ fuel i last, 0 < i → i ≤ 16 → 16 < i + fuel → sizes (i - 1) = some last →
      checkAux sizes 3 2 30 fuel i 0 last = some (ProbeRes.val false) := by
  intro fuel
  induction fuel with
  | zero =>
    intro i last h0 h16 hif _
    omega
  | succ f ih =>
    intro i last h0 h16 hif hlast
    obtain ⟨cur, hcur⟩ := Option.isSome_iff_exists.mp (hsome i)
    have hne : cur ≠ last := by
      intro hEq
      apply hchg (i - 1)
      have hii : i - 1 + 1 = i := by omega
      rw [hii, hcur, hlast, hEq]
    unfold checkAux
    rw [hcur]
    simp only [if_neg hne]
    by_cases hi : 30 < i * 2
    · simp [hi]
    · have h15 : i ≤ 15 := by omega
      simp only [hi, if_false, if_neg (by omega : ¬ 3 ≤ 0)]
      have hnext : sizes (i + 1 - 1) = some cur := by
        have hii : i + 1 - 1 = i := by omega
        rw [hii, hcur]
      exact ih (i + 1) cur (by omega) (by omega) (by omega) hnext

theorem check_file_is_ready_changing (sizes : Nat → Option Nat)
    (hsome : ∀ j, (sizes j).isSome = true)
    (hchg : ∀ j, sizes (j + 1) ≠ sizes j) :
    check_file_is_ready sizes 3 2 30 = some (ProbeRes.val false) := by
  obtain ⟨s0, hs0⟩ := Option.isSome_iff_exists.mp (hsome 0)
  unfold check_file_is_ready
  rw [hs0]
  exact checkAux_changing sizes hsome hchg (probeFuel 2 30) 1 s0 (by omega) (by omega)
    (by norm_num [probeFuel]) hs0

/-- C4 (amended): for a file whose size keeps changing between probe
samples, the stability probe (`wait_until_file_ready`, whose value is
that of its cached `check_file_is_ready`) does return false — but the
probe's Boolean is discarded by `copy_file`, so `process_file` still
copies the file into `working/` and invokes the stage processor on it,
as witnessed by the marker file the processor writes. -/
theorem c4_probe_false_processor_still_invoked (sizes : Nat → Option Nat)
    (hsome : ∀ j, (sizes j).isSome = true)
    (hchg : ∀ j, sizes (j + 1) ≠ sizes j) :
    wait_until_file_ready sizes = some (ProbeRes.val false)
    ∧ isFile (stateOf (process_file cfgC tsC procMarker bigPath fsBig)) markerPath = true := by
  refine ⟨?_, by decide⟩
  unfold wait_until_file_ready
  exact check_file_is_ready_changing sizes hsome hchg

/-- C4 witness: the amended behaviour at the concrete growing-size
trace. -/
theorem c4_probe_false_processor_still_invoked_witness :
    wait_until_file_ready growingSizes = some (ProbeRes.val false)
    ∧ isFile (stateOf (process_file cfgC tsC procMarker bigPath fsBig)) markerPath = true :=
  c4_probe_false_processor_still_invoked growingSizes (fun _ => rfl)
    (fun j => by simp [growingSizes])

/-- C4 counterexample: at a file whose size grows at every sample, the
probe returns false, yet the processor is invoked on the file (its
marker exists afterwards), refuting the claim that the processor is
never invoked on an unstable file. -/
theorem c4_processor_invoked_despite_unstable :
    wait_until_file_ready growingSizes = some (ProbeRes.val false)
    ∧ isFile (stateOf (process_file cfgC tsC procMarker bigPath fsBig)) markerPath = true := by
  decide

theorem assocFind_sweepPipes (now : Nat) (ps : List (String × PInfo)) (pid : String) :
    assocFind (sweepPipes now ps).1 pid =
      (assocFind ps pid).map (fun p => (flipOne now p).1) := by
  induction ps with
  | nil => rfl
  | cons e rest ih =>
    obtain ⟨i, q⟩ := e
    by_cases h : i = pid <;> simp [sweepPipes, assocFind, h, ih]

theorem sweepPipes_pos (now : Nat) (ps : List (String × PInfo)) (pid : String) (p : PInfo)
    (hfind : assocFind ps pid = some p) (hfl : (flipOne now p).2 = true) :
    0 < (sweepPipes now ps).2 := by
  induction ps with
  | nil => simp [assocFind] at hfind
  | cons e rest ih =>
    obtain ⟨i, q⟩ := e
    by_cases h : i = pid
    · rw [assocFind_cons, if_pos h] at hfind
      have hq : q = p := by injection hfind
      subst hq
      simp [sweepPipes, hfl]
    · rw [assocFind_cons, if_neg h] at hfind
      have := ih hfind
      simp [sweepPipes]
      omega

/-- C8: in any sweeper iteration at wall-clock `now`, a pipeline that is
running with `last_update` more than 300 seconds old is set to failed
with the timeout message and at least one `dashboard_update` broadcast
is emitted (given a connected client); pipelines in any other status are
left exactly as they were; and since iterations are 60 seconds apart,
for any iteration schedule started at `t0` no later than the staleness
deadline some iteration lands within `(last_update + 300,
last_update + 360]`. -/
theorem c8_sweeper_timeout_flip (now t0 clients : Nat) (ps : List (String × PInfo))
    (pid : String) (p : PInfo)
    (hfind : assocFind ps pid = some p)
    (hrun : p.status = PStatus.running)
    (hold : p.last_update + 300 < now)
    (hcl : 0 < clients) :
    assocFind (monitor_pipeline_timeouts_step now clients ps).1 pid =
        some { status := PStatus.failed, last_update := p.last_update,
               error_message := some timeoutMsg }
    ∧ 0 < (monitor_pipeline_timeouts_step now clients ps).2
    ∧ (∀ pid2 q, assocFind ps pid2 = some q → q.status ≠ PStatus.running →
        assocFind (monitor_pipeline_timeouts_step now clients ps).1 pid2 = some q)
    ∧ (t0 ≤ p.last_update + 300 →
        ∃ k, p.last_update + 300 < t0 + 60 * k ∧ t0 + 60 * k ≤ p.last_update + 360) := by
  have hflip : flipOne now p =
      ({ status := PStatus.failed, last_update := p.last_update,
         error_message := some timeoutMsg }, true) := by
    unfold flipOne
    rw [if_pos ⟨by omega, hrun⟩]
  refine ⟨?_, ?_, ?_, ?_⟩
  · unfold monitor_pipeline_timeouts_step
    rw [assocFind_sweepPipes, hfind]
    simp [hflip]
  · have hpos := sweepPipes_pos now ps pid p hfind (by rw [hflip])
    unfold monitor_pipeline_timeouts_step
    simp [hcl]
    omega
  · intro pid2 q hq hstat
    have hkeep : flipOne now q = (q, false) := by
      unfold flipOne
      rw [if_neg (fun hAnd => hstat hAnd.2)]
    unfold monitor_pipeline_timeouts_step
    rw [assocFind_sweepPipes, hq]
    simp [hkeep]
  · intro ht0
    refine ⟨(p.last_update + 300 - t0) / 60 + 1, by omega, by omega⟩

/-- C8 witness: the sweeper at second 301 on a pipeline last updated at
second 0, with one idle peer and one connected client. -/
theorem c8_sweeper_timeout_flip_witness :
    assocFind (monitor_pipeline_timeouts_step 301 1 psC).1 sP1 =
        some { status := PStatus.failed, last_update := pRun.last_update,
               error_message := some timeoutMsg }
    ∧ 0 < (monitor_pipeline_timeouts_step 301 1 psC).2
    ∧ (∀ pid2 q, assocFind psC pid2 = some q → q.status ≠ PStatus.running →
        assocFind (monitor_pipeline_timeouts_step 301 1 psC).1 pid2 = some q)
    ∧ (0 ≤ pRun.last_update + 300 →
        ∃ k, pRun.last_update + 300 < 0 + 60 * k ∧ 0 + 60 * k ≤ pRun.last_update + 360) :=
  c8_sweeper_timeout_flip 301 0 1 psC sP1 pRun (by decide) (by decide) (by decide) (by decide)

theorem tsCalls_spec (now : Nat → String) (n : Nat) :
    (tsCalls now n).1 = List.replicate n (now 0)
    ∧ (tsCalls now n).2.entries = if n = 0 then [] else [((), now 0)] := by
  induction n with
  | zero => exact ⟨rfl, rfl⟩
  | succ m ih =>
    obtain ⟨ih1, ih2⟩ := ih
    cases m with
    | zero =>
      constructor <;>
        simp [tsCalls, cache_function_call, generate_timestamp_body, assocFind,
          lruInsert, List.replicate]
    | succ k =>
      have hE : (tsCalls now (k + 1)).2.entries = [((), now 0)] := by
        rw [ih2]
        simp
      have hcall : cache_function_call 256 (generate_timestamp_body now (k + 1)) ()
            (tsCalls now (k + 1)).2 fsEmpty =
          some (now 0, lruTouch (tsCalls now (k + 1)).2 () (now 0), fsEmpty) := by
        unfold cache_function_call
        rw [hE]
        rfl
      unfold tsCalls
      simp only [hcall]
      constructor
      · rw [ih1, ← List.replicate_succ']
      · unfold lruTouch
        simp only [hE]
        rfl

/-- C9: the `cache_function` wrapper (an `lru_cache` behind a
passthrough) memoises by argument values: once a call's entry is in the
cache — in particular immediately after that call — repeating the call
with identical arguments returns the first call's result with the
filesystem untouched, the body not re-executed (shown for the cached
`move_file`); and the argument-less cached `generate_timestamp` returns
the wall-clock string of its first call at every later call of the
process. -/
theorem c9_cache_memoizes :
    (∀ (a : PathL × PathL) (c : LruCache (PathL × PathL) PathL) (fs : FS)
        (v1 : PathL) (c1 : LruCache (PathL × PathL) PathL) (fs1 : FS),
      move_file_cached a c fs = some (v1, c1, fs1) →
      move_file_cached a c1 fs1 = some (v1, lruTouch c1 a v1, fs1))
    ∧ (∀ (now : Nat → String) (n : Nat), (tsCalls now n).1 = List.replicate n (now 0)) := by
  constructor
  · intro a c fs v1 c1 fs1 h
    have hmem : assocFind c1.entries a = some v1 := by
      unfold move_file_cached cache_function_call at h
      cases hf : assocFind c.entries a with
      | some v =>
        rw [hf] at h
        simp only [Option.some.injEq, Prod.mk.injEq] at h
        obtain ⟨hv, hc, _⟩ := h
        rw [← hc, ← hv]
        unfold lruTouch
        simp [assocFind]
      | none =>
        rw [hf] at h
        cases hb : move_file_body a fs with
        | none =>
          rw [hb] at h
          exact absurd h (by simp)
        | some pr =>
          rw [hb] at h
          simp only [Option.some.injEq, Prod.mk.injEq] at h
          obtain ⟨hv, hc, _⟩ := h
          rw [← hc, ← hv]
          unfold lruInsert
          simp [assocFind]
    unfold move_file_cached cache_function_call
    rw [hmem]
  · intro now n
    exact (tsCalls_spec now n).1

/-- C9 witness: a concrete cached `move_file` call followed by its
repeat, and three cached `generate_timestamp` calls under a clock that
renders differently at every second. -/
theorem c9_cache_memoizes_witness :
    move_file_cached mvKey lruEmptyMv fsDoc = some (mvVal1, mvCache1, mvFs1)
    ∧ move_file_cached mvKey mvCache1 mvFs1 =
        some (mvVal1, lruTouch mvCache1 mvKey mvVal1, mvFs1)
    ∧ (tsCalls clockC 3).1 = List.replicate 3 (clockC 0) :=
  ⟨by decide,
    c9_cache_memoizes.1 mvKey lruEmptyMv fsDoc mvVal1 mvCache1 mvFs1 (by decide),
    c9_cache_memoizes.2 clockC 3⟩

theorem countStatus_partition (ps : List (String × PInfo)) :
    ps.length = countStatus PStatus.running ps + countStatus PStatus.failed ps
      + countStatus PStatus.completed ps + countStatus PStatus.idle ps
      + countStatus PStatus.paused ps := by
  induction ps with
  | nil => rfl
  | cons e rest ih =>
    cases h : e.2.status <;>
      simp [countStatus, List.filter_cons, h] at ih ⊢ <;> omega

/-- C10: after `update_global_stats`, the total equals the number of
tracked pipelines, and equals the sum of the active, failed, completed
and idle buckets plus the number of paused pipelines — paused pipelines
are in the total but in no dedicated bucket. -/
theorem c10_global_stats_partition (ps : List (String × PInfo)) :
    (update_global_stats ps).total_pipelines = ps.length
    ∧ (update_global_stats ps).total_pipelines =
        (update_global_stats ps).active_pipelines + (update_global_stats ps).failed_pipelines
        + (update_global_stats ps).completed_pipelines + (update_global_stats ps).idle_pipelines
        + countStatus PStatus.paused ps :=
  ⟨rfl, countStatus_partition ps⟩
